import Mathlib

/-!
Verification of the `gh-jj` clone orchestration pipeline (src/main.rs) against
its natural-language specification.

The Rust program is embedded shallowly:

* `Source.fromStr` embeds `impl FromStr for Source`.  The Rust code matches the
  input against the anchored regex `^(?:([a-zA-Z0-9-]+)\/)?([a-zA-Z0-9_.-]+)$`.
  Neither character class contains `/`, so a successful match either contains
  no `/` at all (bare-name form) or exactly one `/` splitting owner from name;
  the embedding therefore splits at the first `/` (if any) and checks both
  character classes, which computes exactly the regex's match and captures.
* `clone` embeds `async fn clone`.  External effects (gh host config loading,
  the octocrab repository lookup, spawning `jj`, its stderr lines, its exit
  status, and the exit status of the `jj git remote add` call) are supplied by
  an explicit `Env` record; the returned `CloneRun` records the result and the
  observable actions of the run (the argument list given to `jj`, the lines
  echoed to stderr, the directory extracted from the diagnostic output, the
  remote-add invocation if any, and an ordered event trace).
  Stream reads are modelled as always succeeding with the given line list
  (`BufReader::lines` on an owned piped stderr); `stderr.take()` on a
  just-piped child always succeeds and is not given a failure case.
* `extractDir` embeds the per-line directory extraction: the line is trimmed
  and matched against the anchored regex `^Fetching into new repo in "(.*)"$`.
  The dot in `(.*)` matches every character except a newline, and the match is
  anchored on both sides with the surrounding literals fixed, so the capture
  is exactly the text strictly between the literal head and the final `"`.
  Rust's `str::trim` strips Unicode whitespace; the embedding strips the ASCII
  whitespace characters, which agree on every character the claims involve.
-/

namespace GhJj

/-- Character class of the regex's owner group `[a-zA-Z0-9-]`. -/
def isOwnerChar (c : Char) : Bool := c.isAlphanum || c == '-'

/-- Character class of the regex's name group `[a-zA-Z0-9_.-]`. -/
def isNameChar (c : Char) : Bool := c.isAlphanum || c == '_' || c == '.' || c == '-'

/-- Split a character list at its first `/`, if any. -/
def splitSlash : List Char → Option (List Char × List Char)
  | [] => none
  | c :: cs =>
    if c == '/' then some ([], cs)
    else
      match splitSlash cs with
      | some (a, b) => some (c :: a, b)
      | none => none

/-- `enum Source`: a GitHub `owner?/repo` pair or a raw web location. -/
inductive Source where
  | GitHub (owner : Option String) (repo : String)
  | Web (url : String)
deriving DecidableEq, Repr

/-- `impl FromStr for Source` (infallible): match the input against
`^(?:([a-zA-Z0-9-]+)\/)?([a-zA-Z0-9_.-]+)$`; on a match produce
`Source.GitHub` with the captured groups, otherwise `Source.Web` with
the original string.  Since `/` is in neither character class, a match
has at most one `/` and the split point is the first `/`. -/
def Source.fromStr (s : String) : Source :=
  match splitSlash s.data with
  | none =>
    if !s.data.isEmpty && s.data.all isNameChar then
      Source.GitHub none s
    else
      Source.Web s
  | some (o, rest) =>
    if !o.isEmpty && o.all isOwnerChar && !rest.isEmpty && rest.all isNameChar then
      Source.GitHub (some (String.mk o)) (String.mk rest)
    else
      Source.Web s

/-- ASCII whitespace stripped by the embedding of `str::trim`. -/
def isWsChar (c : Char) : Bool := c == ' ' || c == '\t' || c == '\n' || c == '\r'

/-- Strip leading and trailing whitespace (`str::trim`). -/
def trimChars (cs : List Char) : List Char :=
  ((cs.dropWhile isWsChar).reverse.dropWhile isWsChar).reverse

/-- Strip an expected literal head from a character list. -/
def stripHead : List Char → List Char → Option (List Char)
  | [], t => some t
  | _ :: _, [] => none
  | p :: ps, c :: cs => if c == p then stripHead ps cs else none

/-- The literal head of the diagnostic pattern, up to and including the
opening quote. -/
def fetchHead : List Char := "Fetching into new repo in \"".data

/-- Match a (trimmed) character list against the anchored regex
`^Fetching into new repo in "(.*)"$` and return the capture: the literal
head must be present, the last character must be `"`, and the capture in
between must contain no newline (regex `.` does not match `\n`). -/
def matchDirLine (t : List Char) : Option (List Char) :=
  match stripHead fetchHead t with
  | none => none
  | some rest =>
    if rest.getLast? == some '"' && rest.dropLast.all (fun c => !(c == '\n')) then
      some rest.dropLast
    else
      none

/-- Per-line directory extraction: `extract_dir_regex.captures(line.trim())`,
returning the captured path. -/
def extractDir (line : String) : Option String :=
  (matchDirLine (trimChars line.data)).map String.mk

/-- One iteration of the stderr loop body on the `extracted_directory`
accumulator: the pattern is only tried while no directory has been found. -/
def stepLine (acc : Option String) (line : String) : Option String :=
  if acc.isSome then acc else extractDir line

/-- The stderr read loop: every line is echoed (first component, in order)
and the `extracted_directory` accumulator is threaded through `stepLine`. -/
def runLoop : List String → Option String → List String × Option String
  | [], acc => ([], acc)
  | l :: ls, acc =>
    let r := runLoop ls (stepLine acc l)
    (l :: r.1, r.2)

/-- `struct CloneCommand`: the parsed CLI arguments of the `clone` subcommand.
`PathBuf` is modelled as a string. -/
structure CloneCommand where
  repo : String
  directory : Option String
  colocate : Bool
  upstream_remote_name : String
  rest : List String
deriving DecidableEq, Repr

/-- The optional GitHub upstream (parent) repository of a fork, as returned by
the API; only its `url` field is used. -/
structure Upstream where
  url : String
deriving DecidableEq, Repr

/-- The repository metadata returned by `octocrab.repos(owner, name).get()`;
only the `parent` field is used. -/
structure RepoInfo where
  parent : Option Upstream
deriving DecidableEq, Repr

/-- The github.com entry of the gh hosts file (`hosts.get(GITHUB_COM)` result);
only its `user` field is read. -/
structure GithubHost where
  user : Option String
deriving DecidableEq, Repr

/-- The loaded gh hosts configuration.  `github` is the result of
`hosts.get(GITHUB_COM)`; `token` is the result of
`hosts.retrieve_token(GITHUB_COM)`: `none` is the Err case,
`some none` is Ok(None), `some (some t)` is Ok(Some t). -/
structure Hosts where
  github : Option GithubHost
  token : Option (Option String)
deriving DecidableEq, Repr

/-- The external world of one `clone` run: results of the fallible effects the
Rust function performs, in program order.  `hosts_load` is the result of
`gh_config::Hosts::load()`; `octocrab_build_ok` whether
`Octocrab::builder()...build()` succeeds; `repos_get` the repository lookup
result per (owner, name), `none` being any transport/API error;
`spawn_ok` whether `command.spawn()` succeeds; `stderr_lines` the lines the
child writes to its piped stderr before end-of-stream; `wait_result` the
result of `jj_clone.wait()` (`none` = the wait itself errors, `some b` = exit
with success flag `b`); `remote_add_status` likewise for the
`jj -R <dir> git remote add` invocation. -/
structure Env where
  hosts_load : Option Hosts
  octocrab_build_ok : Bool
  repos_get : String → String → Option RepoInfo
  spawn_ok : Bool
  stderr_lines : List String
  wait_result : Option Bool
  remote_add_status : Option Bool

/-- The error exits of `clone`, one per `?`/`return Err` site, labelled by the
attached context message. -/
inductive CloneError where
  | ghHostsFailed        -- "Failed to get gh hosts"
  | noGithubHost         -- "No github.com host found"
  | noGithubUser         -- "No github.com user found"
  | tokenRetrieveFailed  -- "Failed to retrieve github token"
  | noToken              -- "No github.com token found"
  | octocrabBuildFailed  -- `Octocrab::builder().build()?`
  | repoInfoFailed       -- "Failed to get repo info"
  | spawnFailed          -- "Failed to spawn jj"
  | waitFailed           -- "Failed to execute jj cli" (clone wait)
  | cloneProcessFailed   -- "JJ clone failed"
  | missingDirectory     -- "Couldn't find directory"
  | remoteAddExecFailed  -- "Failed to execute jj cli" (remote add)
  | remoteAddFailed      -- "Failed to add upstream remote"
deriving DecidableEq, Repr

/-- The spec's `CloneProcessError`: spawn failure or unsuccessful exit of the
clone invocation (spec section 7 taxonomy). -/
def isCloneProcessError : CloneError → Bool
  | .spawnFailed => true
  | .cloneProcessFailed => true
  | _ => false

/-- Observable ordered events of one run: a line echoed to the user's stderr,
the wait-for-exit call on the clone child, the remote-add invocation. -/
inductive Event where
  | echo (line : String)
  | waitConsulted
  | remoteAddInvoked (dir remoteName url : String)
deriving DecidableEq, Repr

/-- Everything one `clone` run did: its result and its observable actions.
`usedApi` records whether the repository-metadata lookup was reached,
`repoUrl` the clone URL once determined, `cloneArgs` the argument list handed
to the spawned `jj` process, `echoed` the lines echoed to stderr, `extracted`
the final `extracted_directory`, `remoteAdd` the (directory, remote name,
upstream url) triple of the remote-add invocation if one was issued, and
`events` the ordered event trace. -/
structure CloneRun where
  result : Except CloneError Unit
  usedApi : Bool
  repoUrl : Option String
  cloneArgs : Option (List String)
  echoed : List String
  extracted : Option String
  remoteAdd : Option (String × String × String)
  events : List Event

/-- Owner defaulting: an explicit owner is kept; otherwise the authenticated
user is looked up from the github.com host entry. -/
def resolveOwner (hosts : Hosts) : Option String → Except CloneError String
  | some o => .ok o
  | none =>
    match hosts.github with
    | none => .error .noGithubHost
    | some gh =>
      match gh.user with
      | none => .error .noGithubUser
      | some u => .ok u

/-- The `match source` phase of `clone`: for a `Web` source the original
string is the URL and no upstream is known; for a `GitHub` source the hosts
file is loaded, the owner defaulted, the token retrieved, the API client
built, the repository metadata fetched (setting `upstream` from its parent)
and the canonical URL `https://github.com/{owner}/{repo_name}` formed.  The
second component records whether the metadata lookup was reached. -/
def resolvePhase (env : Env) : Source → Except CloneError (String × Option Upstream) × Bool
  | .Web url => (.ok (url, none), false)
  | .GitHub owner repo_name =>
    match env.hosts_load with
    | none => (.error .ghHostsFailed, false)
    | some hosts =>
      match resolveOwner hosts owner with
      | .error e => (.error e, false)
      | .ok ow =>
        match hosts.token with
        | none => (.error .tokenRetrieveFailed, false)
        | some none => (.error .noToken, false)
        | some (some _) =>
          if env.octocrab_build_ok then
            match env.repos_get ow repo_name with
            | none => (.error .repoInfoFailed, true)
            | some repo =>
              (.ok ("https://github.com/" ++ ow ++ "/" ++ repo_name, repo.parent), true)
          else
            (.error .octocrabBuildFailed, false)

/-- The argument list built for the clone invocation, in construction order:
`git clone`, the colocate flag if requested, the URL, the explicit
destination if given, then the passthrough arguments. -/
def buildCloneArgs (colocate : Bool) (url : String) (dir : Option String)
    (rest : List String) : List String :=
  let args := ["git", "clone"]
  let args := if colocate then args ++ ["--colocate"] else args
  let args := args ++ [url]
  let args := match dir with
    | some d => args ++ [d]
    | none => args
  args ++ rest

/-- The remote-wiring tail of `clone`, reached with a fork parent `up` and a
resolved working directory `d`:
`jj -R <d> git remote add <upstream_remote_name> <up.url>`. -/
def wireUpstream (cmd : CloneCommand) (env : Env) (usedApi : Bool) (url : String)
    (args : List String) (sup : List String × Option String) (up : Upstream)
    (d : String) : CloneRun :=
  let call := (d, cmd.upstream_remote_name, up.url)
  let evs := sup.1.map Event.echo ++
    [Event.waitConsulted, Event.remoteAddInvoked d cmd.upstream_remote_name up.url]
  match env.remote_add_status with
  | none =>
    { result := .error .remoteAddExecFailed, usedApi := usedApi,
      repoUrl := some url, cloneArgs := some args, echoed := sup.1,
      extracted := sup.2, remoteAdd := some call, events := evs }
  | some true =>
    { result := .ok (), usedApi := usedApi, repoUrl := some url,
      cloneArgs := some args, echoed := sup.1, extracted := sup.2,
      remoteAdd := some call, events := evs }
  | some false =>
    { result := .error .remoteAddFailed, usedApi := usedApi,
      repoUrl := some url, cloneArgs := some args, echoed := sup.1,
      extracted := sup.2, remoteAdd := some call, events := evs }

/-- The supervisor-and-wiring part of `clone`, after the URL and upstream are
resolved: build the argument list, spawn, drain stderr through `runLoop`
(echoing every line and extracting the directory), then wait; on successful
exit, if a fork parent exists, resolve the directory as the explicit one or
else the extracted one and wire the upstream remote. -/
def runClone (cmd : CloneCommand) (env : Env) (usedApi : Bool) (url : String)
    (up : Option Upstream) : CloneRun :=
  let args := buildCloneArgs cmd.colocate url cmd.directory cmd.rest
  if env.spawn_ok then
    let sup := runLoop env.stderr_lines none
    let evs := sup.1.map Event.echo ++ [Event.waitConsulted]
    match env.wait_result with
    | none =>
      { result := .error .waitFailed, usedApi := usedApi, repoUrl := some url,
        cloneArgs := some args, echoed := sup.1, extracted := sup.2,
        remoteAdd := none, events := evs }
    | some false =>
      { result := .error .cloneProcessFailed, usedApi := usedApi,
        repoUrl := some url, cloneArgs := some args, echoed := sup.1,
        extracted := sup.2, remoteAdd := none, events := evs }
    | some true =>
      match up with
      | none =>
        { result := .ok (), usedApi := usedApi, repoUrl := some url,
          cloneArgs := some args, echoed := sup.1, extracted := sup.2,
          remoteAdd := none, events := evs }
      | some upstream =>
        match cmd.directory with
        | some d => wireUpstream cmd env usedApi url args sup upstream d
        | none =>
          match sup.2 with
          | some d => wireUpstream cmd env usedApi url args sup upstream d
          | none =>
            { result := .error .missingDirectory, usedApi := usedApi,
              repoUrl := some url, cloneArgs := some args, echoed := sup.1,
              extracted := sup.2, remoteAdd := none, events := evs }
  else
    { result := .error .spawnFailed, usedApi := usedApi, repoUrl := some url,
      cloneArgs := some args, echoed := [], extracted := none,
      remoteAdd := none, events := [] }

/-- `async fn clone`: parse the specifier (infallible), resolve the URL and
upstream, then run the supervised clone and optional remote wiring. -/
def clone (cmd : CloneCommand) (env : Env) : CloneRun :=
  match resolvePhase env (Source.fromStr cmd.repo) with
  | (.error e, usedApi) =>
    { result := .error e, usedApi := usedApi, repoUrl := none, cloneArgs := none,
      echoed := [], extracted := none, remoteAdd := none, events := [] }
  | (.ok (url, up), usedApi) => runClone cmd env usedApi url up

/-! ### Concrete sample inputs (used by the witnesses) -/

/-- A gh hosts file with user `alice` and a token present. -/
def sampleHosts : Hosts :=
  { github := some { user := some "alice" }, token := some (some "token-value") }

/-- A fork parent at `carol/proj`. -/
def sampleUpstream : Upstream := { url := "https://github.com/carol/proj" }

/-- A fully successful world: hosts load, API reports a fork parent, the clone
spawns, prints the diagnostic line and exits 0, and the remote add exits 0. -/
def sampleEnv : Env :=
  { hosts_load := some sampleHosts
    octocrab_build_ok := true
    repos_get := fun _ _ => some { parent := some sampleUpstream }
    spawn_ok := true
    stderr_lines := ["Fetching into new repo in \"fork-of-proj\""]
    wait_result := some true
    remote_add_status := some true }

/-- `gh jj clone bob/fork-of-proj`. -/
def sampleCmd : CloneCommand :=
  { repo := "bob/fork-of-proj", directory := none, colocate := false,
    upstream_remote_name := "upstream", rest := [] }

/-- `gh jj clone bob/fork-of-proj dest`. -/
def sampleCmdDest : CloneCommand := { sampleCmd with directory := some "dest" }

/-- `gh jj clone https://example.com/some/raw.git`. -/
def sampleCmdRaw : CloneCommand :=
  { sampleCmd with repo := "https://example.com/some/raw.git" }

/-- `gh jj clone --colocate bob/fork-of-proj D -- --depth 1`. -/
def sampleCmdFull : CloneCommand :=
  { repo := "bob/fork-of-proj", directory := some "D", colocate := true,
    upstream_remote_name := "upstream", rest := ["--depth", "1"] }

/-- Like `sampleEnv` but the clone subprocess exits unsuccessfully. -/
def sampleEnvCloneFail : Env := { sampleEnv with wait_result := some false }

/-- Like `sampleEnv` but no diagnostic line matches the directory pattern. -/
def sampleEnvNoDirLine : Env := { sampleEnv with stderr_lines := ["noise"] }

/-! ### Spec-side predicates (from the claims' wording) -/

/-- A legal owner segment per the spec: nonempty, alphanumerics and hyphens. -/
def ownerOk (o : String) : Prop := o ≠ "" ∧ o.data.all isOwnerChar = true

/-- A legal name segment per the spec: nonempty, alphanumerics, hyphens,
underscores and dots. -/
def nameOk (n : String) : Prop := n ≠ "" ∧ n.data.all isNameChar = true

instance (o : String) : Decidable (ownerOk o) := by unfold ownerOk; infer_instance

instance (n : String) : Decidable (nameOk n) := by unfold nameOk; infer_instance

/-! ### Helper lemmas -/

theorem mk_data (s : String) : String.mk s.data = s := rfl

theorem slash_data : ("/" : String).data = ['/'] := rfl

theorem splitSlash_of_no_slash {cs : List Char} (h : ∀ c ∈ cs, ¬ c = '/') :
    splitSlash cs = none := by
  induction cs with
  | nil => rfl
  | cons c cs ih =>
    have hc : (c == '/') = false := by simpa using h c (by simp)
    simp only [splitSlash, hc, Bool.false_eq_true, if_false]
    rw [ih (fun x hx => h x (by simp [hx]))]

theorem splitSlash_append {a : List Char} (b : List Char)
    (h : ∀ c ∈ a, ¬ c = '/') : splitSlash (a ++ '/' :: b) = some (a, b) := by
  induction a with
  | nil => simp [splitSlash]
  | cons c cs ih =>
    have hc : (c == '/') = false := by simpa using h c (by simp)
    simp only [List.cons_append, splitSlash, hc, Bool.false_eq_true, if_false,
      List.append_eq]
    rw [ih (fun x hx => h x (by simp [hx]))]

theorem splitSlash_eq_some : ∀ {cs a b : List Char},
    splitSlash cs = some (a, b) → cs = a ++ '/' :: b := by
  intro cs
  induction cs with
  | nil => intro a b h; simp [splitSlash] at h
  | cons c cs ih =>
    intro a b h
    by_cases hc : c = '/'
    · subst hc
      simp [splitSlash] at h
      obtain ⟨rfl, rfl⟩ := h
      simp
    · have hc' : (c == '/') = false := by simpa using hc
      simp only [splitSlash, hc', Bool.false_eq_true, if_false] at h
      cases h2 : splitSlash cs with
      | none => rw [h2] at h; simp at h
      | some p =>
        obtain ⟨x, y⟩ := p
        rw [h2] at h
        simp only [Option.some.injEq, Prod.mk.injEq] at h
        obtain ⟨rfl, rfl⟩ := h
        simp [ih h2]

theorem no_slash_of_all_ownerChar {cs : List Char} (h : cs.all isOwnerChar = true) :
    ∀ c ∈ cs, ¬ c = '/' := by
  intro c hc he
  subst he
  exact absurd (List.all_eq_true.mp h '/' hc) (by decide)

theorem no_slash_of_all_nameChar {cs : List Char} (h : cs.all isNameChar = true) :
    ∀ c ∈ cs, ¬ c = '/' := by
  intro c hc he
  subst he
  exact absurd (List.all_eq_true.mp h '/' hc) (by decide)

theorem ne_empty_data {s : String} (h : s ≠ "") : s.data ≠ [] := by
  intro hd
  exact h (String.ext (by simp [hd]))

theorem runLoop_fst (ls : List String) (acc : Option String) :
    (runLoop ls acc).1 = ls := by
  induction ls generalizing acc with
  | nil => rfl
  | cons l ls ih => simp [runLoop, ih]

theorem runLoop_snd_of_some (ls : List String) (d : String) :
    (runLoop ls (some d)).2 = some d := by
  induction ls with
  | nil => rfl
  | cons l ls ih => simpa [runLoop, stepLine] using ih

theorem runLoop_snd_of_all_none {ls : List String}
    (h : ∀ l ∈ ls, extractDir l = none) : (runLoop ls none).2 = none := by
  induction ls with
  | nil => rfl
  | cons l ls ih =>
    have hl : extractDir l = none := h l (by simp)
    simpa [runLoop, stepLine, hl] using ih fun x hx => h x (by simp [hx])

theorem dropWhile_ws_of_all {w : List Char} (t : List Char)
    (hw : w.all isWsChar = true) :
    (w ++ t).dropWhile isWsChar = t.dropWhile isWsChar := by
  induction w with
  | nil => rfl
  | cons c cs ih =>
    simp only [List.all_cons, Bool.and_eq_true] at hw
    simp [List.dropWhile_cons, hw.1, ih hw.2]

theorem dropWhile_cons_of_not {c : Char} (t : List Char) (hc : isWsChar c = false) :
    (c :: t).dropWhile isWsChar = c :: t := by
  simp [List.dropWhile_cons, hc]

theorem stripHead_append (h t : List Char) : stripHead h (h ++ t) = some t := by
  induction h with
  | nil => rfl
  | cons c cs ih => simp [stripHead, ih]

theorem trimChars_of_ends {w₁ w₂ : List Char} (a b : Char) (m : List Char)
    (hw₁ : w₁.all isWsChar = true) (hw₂ : w₂.all isWsChar = true)
    (ha : isWsChar a = false) (hb : isWsChar b = false) :
    trimChars (w₁ ++ (a :: (m ++ [b])) ++ w₂) = a :: (m ++ [b]) := by
  unfold trimChars
  rw [List.append_assoc, dropWhile_ws_of_all _ hw₁]
  have e1 : (a :: (m ++ [b])) ++ w₂ = a :: (m ++ [b] ++ w₂) := by simp
  rw [e1, dropWhile_cons_of_not _ ha]
  have e2 : (a :: (m ++ [b] ++ w₂)).reverse = w₂.reverse ++ (b :: (m.reverse ++ [a])) := by
    simp
  rw [e2, dropWhile_ws_of_all _ (by simpa using hw₂), dropWhile_cons_of_not _ hb]
  simp

theorem buildCloneArgs_eq (c : Bool) (url : String) (dir : Option String)
    (rest : List String) :
    buildCloneArgs c url dir rest
      = ["git", "clone"] ++ (if c then ["--colocate"] else []) ++ [url]
          ++ (match dir with | some d => [d] | none => []) ++ rest := by
  cases c <;> cases dir <;> simp [buildCloneArgs]

theorem wireUpstream_fields (cmd : CloneCommand) (env : Env) (ua : Bool)
    (url : String) (args : List String) (sup : List String × Option String)
    (up : Upstream) (d : String) :
    (wireUpstream cmd env ua url args sup up d).remoteAdd
        = some (d, cmd.upstream_remote_name, up.url) ∧
    (wireUpstream cmd env ua url args sup up d).extracted = sup.2 ∧
    (wireUpstream cmd env ua url args sup up d).usedApi = ua ∧
    (wireUpstream cmd env ua url args sup up d).repoUrl = some url ∧
    (wireUpstream cmd env ua url args sup up d).cloneArgs = some args ∧
    (wireUpstream cmd env ua url args sup up d).events
        = sup.1.map Event.echo
            ++ [Event.waitConsulted,
                Event.remoteAddInvoked d cmd.upstream_remote_name up.url] := by
  cases h : env.remote_add_status with
  | none => simp [wireUpstream, h]
  | some b => cases b <;> simp [wireUpstream, h]

theorem runClone_args (cmd : CloneCommand) (env : Env) (ua : Bool) (url : String)
    (up : Option Upstream) :
    (runClone cmd env ua url up).cloneArgs
        = some (buildCloneArgs cmd.colocate url cmd.directory cmd.rest) ∧
    (runClone cmd env ua url up).repoUrl = some url ∧
    (runClone cmd env ua url up).usedApi = ua := by
  cases hsp : env.spawn_ok with
  | false => simp [runClone, hsp]
  | true =>
    cases hw : env.wait_result with
    | none => simp [runClone, hsp, hw]
    | some b =>
      cases b with
      | false => simp [runClone, hsp, hw]
      | true =>
        cases up with
        | none => simp [runClone, hsp, hw]
        | some upstream =>
          cases hdir : cmd.directory with
          | some d =>
            have hf := wireUpstream_fields cmd env ua url
              (buildCloneArgs cmd.colocate url cmd.directory cmd.rest)
              (runLoop env.stderr_lines none) upstream d
            simp [runClone, hsp, hw, hdir] at hf ⊢
            exact ⟨hf.2.2.2.2.1, hf.2.2.2.1, hf.2.2.1⟩
          | none =>
            cases hex : (runLoop env.stderr_lines none).2 with
            | none => simp [runClone, hsp, hw, hdir, hex]
            | some d =>
              have hf := wireUpstream_fields cmd env ua url
                (buildCloneArgs cmd.colocate url cmd.directory cmd.rest)
                (runLoop env.stderr_lines none) upstream d
              simp [runClone, hsp, hw, hdir, hex] at hf ⊢
              exact ⟨hf.2.2.2.2.1, hf.2.2.2.1, hf.2.2.1⟩

theorem runClone_no_upstream (cmd : CloneCommand) (env : Env) (ua : Bool)
    (url : String) :
    (runClone cmd env ua url none).remoteAdd = none := by
  cases hsp : env.spawn_ok with
  | false => simp [runClone, hsp]
  | true =>
    cases hw : env.wait_result with
    | none => simp [runClone, hsp, hw]
    | some b => cases b <;> simp [runClone, hsp, hw]

theorem web_carries_original {s u : String} (h : Source.fromStr s = .Web u) :
    u = s := by
  unfold Source.fromStr at h
  cases hs : splitSlash s.data with
  | none =>
    rw [hs] at h
    by_cases hc : (!s.data.isEmpty && s.data.all isNameChar) = true
    · simp [hc] at h
    · rw [Bool.not_eq_true] at hc
      simp [hc] at h
      exact h.symm
  | some p =>
    obtain ⟨a, b⟩ := p
    rw [hs] at h
    by_cases hc : (!a.isEmpty && a.all isOwnerChar && !b.isEmpty && b.all isNameChar) = true
    · simp [hc] at h
    · rw [Bool.not_eq_true] at hc
      simp [hc] at h
      exact h.symm

/-! ### Claim theorems -/

/-- Claim C1: the specifier resolver is total and never fails: every input of
the form `owner/name` or bare `name` over the permitted character sets is
mapped to `Source.GitHub` with exactly the captured owner (present or absent)
and name substrings, and every other input is mapped to `Source.Web` carrying
the original string unchanged. -/
theorem resolver_total_spec (s : String) :
    (∀ o n : String, ownerOk o → nameOk n → s = o ++ "/" ++ n →
        Source.fromStr s = Source.GitHub (some o) n) ∧
    (∀ n : String, nameOk n → s = n → Source.fromStr s = Source.GitHub none n) ∧
    ((¬ ∃ o n : String, ownerOk o ∧ nameOk n ∧ s = o ++ "/" ++ n) →
      (¬ ∃ n : String, nameOk n ∧ s = n) → Source.fromStr s = Source.Web s) := by
  refine ⟨?_, ?_, ?_⟩
  · rintro o n ⟨ho1, ho2⟩ ⟨hn1, hn2⟩ rfl
    have hdata : (o ++ "/" ++ n).data = o.data ++ '/' :: n.data := by
      simp [String.data_append, slash_data]
    unfold Source.fromStr
    rw [hdata, splitSlash_append _ (no_slash_of_all_ownerChar ho2)]
    have ho0 : o.data.isEmpty = false := List.isEmpty_eq_false.mpr (ne_empty_data ho1)
    have hn0 : n.data.isEmpty = false := List.isEmpty_eq_false.mpr (ne_empty_data hn1)
    simp [ho0, hn0, ho2, hn2, mk_data]
  · rintro n ⟨hn1, hn2⟩ rfl
    unfold Source.fromStr
    rw [splitSlash_of_no_slash (no_slash_of_all_nameChar hn2)]
    have hn0 : s.data.isEmpty = false := List.isEmpty_eq_false.mpr (ne_empty_data hn1)
    simp [hn0, hn2]
  · intro h1 h2
    unfold Source.fromStr
    cases hs : splitSlash s.data with
    | none =>
      by_cases hall : s.data.all isNameChar = true
      · by_cases hne : s.data = []
        · simp [hne]
        · exfalso
          refine h2 ⟨s, ⟨?_, hall⟩, rfl⟩
          intro he
          exact hne (by simp [he])
      · have : s.data.all isNameChar = false := by
          simpa using hall
        simp [this]
    | some p =>
      obtain ⟨a, b⟩ := p
      have hcs := splitSlash_eq_some hs
      by_cases hc : (!a.isEmpty && a.all isOwnerChar && !b.isEmpty && b.all isNameChar) = true
      · exfalso
        simp only [Bool.and_eq_true, Bool.not_eq_true', List.isEmpty_eq_false] at hc
        obtain ⟨⟨⟨ha0, ha⟩, hb0⟩, hb⟩ := hc
        apply h1
        refine ⟨String.mk a, String.mk b, ⟨?_, ha⟩, ⟨?_, hb⟩, ?_⟩
        · intro he
          exact ha0 (by simpa [String.ext_iff] using he)
        · intro he
          exact hb0 (by simpa [String.ext_iff] using he)
        · exact String.ext (by simp [String.data_append, slash_data, hcs])
      · simp [hc]

/-- Witness for C1: `"alice/proj"` satisfies the hosted form and resolves to
`GitHub (some "alice") "proj"`. -/
theorem resolver_total_spec_witness :
    ownerOk "alice" ∧ nameOk "proj" ∧
      Source.fromStr "alice/proj" = Source.GitHub (some "alice") "proj" :=
  ⟨by decide, by decide,
    (resolver_total_spec "alice/proj").1 "alice" "proj" (by decide) (by decide) rfl⟩

/-- Claim C5: the diagnostic line scanner sets the discovered directory at
most once: for every sequence of lines, the first line matching the directory
pattern determines the result, later lines (matching or not) leave it
unchanged, and every line of the sequence is echoed in order. -/
theorem first_match_only (ls₁ ls₂ : List String) (l d : String)
    (hm : extractDir l = some d) (hpre : ∀ x ∈ ls₁, extractDir x = none) :
    (runLoop (ls₁ ++ l :: ls₂) none).2 = some d ∧
    (runLoop (ls₁ ++ l :: ls₂) none).1 = ls₁ ++ l :: ls₂ := by
  refine ⟨?_, runLoop_fst ..⟩
  induction ls₁ with
  | nil => simp [runLoop, stepLine, hm, runLoop_snd_of_some]
  | cons x xs ih =>
    have hx : extractDir x = none := hpre x (by simp)
    simpa [runLoop, stepLine, hx] using ih fun y hy => hpre y (by simp [hy])

/-- Witness for C5: a non-matching line, then a matching line for `d1`, then a
second matching line for `d2`: the scanner keeps `d1` and echoes all three. -/
theorem first_match_only_witness :
    (runLoop ["a", "Fetching into new repo in \"d1\"",
        "Fetching into new repo in \"d2\""] none).2 = some "d1" ∧
    (runLoop ["a", "Fetching into new repo in \"d1\"",
        "Fetching into new repo in \"d2\""] none).1 =
      ["a", "Fetching into new repo in \"d1\"", "Fetching into new repo in \"d2\""] :=
  first_match_only ["a"] ["Fetching into new repo in \"d2\""]
    "Fetching into new repo in \"d1\"" "d1" (by decide) (by decide)

/-- Claim C10: diagnostic lines are trimmed of leading and trailing whitespace
before the directory pattern is tried: any line whose trimmed content is
`Fetching into new repo in "<path>"` records the path, even when the raw line
carries surrounding whitespace (the capture must be newline-free, as the
regex dot does not match a newline). -/
theorem trim_before_pattern (w₁ w₂ p : String)
    (hw₁ : w₁.data.all isWsChar = true) (hw₂ : w₂.data.all isWsChar = true)
    (hp : p.data.all (fun c => !(c == '\n')) = true) :
    extractDir (w₁ ++ "Fetching into new repo in \"" ++ p ++ "\"" ++ w₂) = some p ∧
    (runLoop [w₁ ++ "Fetching into new repo in \"" ++ p ++ "\"" ++ w₂] none).2
      = some p := by
  have h1 : extractDir (w₁ ++ "Fetching into new repo in \"" ++ p ++ "\"" ++ w₂)
      = some p := by
    unfold extractDir
    have hdata : (w₁ ++ "Fetching into new repo in \"" ++ p ++ "\"" ++ w₂).data
        = w₁.data ++ ('F' :: (("etching into new repo in \"".data ++ p.data) ++ ['"']))
            ++ w₂.data := by
      simp [String.data_append]
    rw [hdata, trimChars_of_ends 'F' '"' _ hw₁ hw₂ (by decide) (by decide)]
    have hsh : 'F' :: (("etching into new repo in \"".data ++ p.data) ++ ['"'])
        = fetchHead ++ (p.data ++ ['"']) := by
      show _ = ('F' :: "etching into new repo in \"".data) ++ (p.data ++ ['"'])
      simp
    rw [hsh]
    unfold matchDirLine
    rw [stripHead_append]
    simp [List.getLast?_concat, List.dropLast_concat, hp, mk_data]
  exact ⟨h1, by simp [runLoop, stepLine, h1]⟩

/-- Witness for C10: a raw line with two leading and one trailing space whose
trimmed content names `fork dir` is matched and records `fork dir`. -/
theorem trim_before_pattern_witness :
    extractDir ("  " ++ "Fetching into new repo in \"" ++ "fork dir" ++ "\"" ++ " ")
      = some "fork dir" ∧
    (runLoop ["  " ++ "Fetching into new repo in \"" ++ "fork dir" ++ "\"" ++ " "]
      none).2 = some "fork dir" :=
  trim_before_pattern "  " " " "fork dir" (by decide) (by decide) (by decide)

/-- Claim C2: when remote wiring is performed, the directory it uses is the
user-supplied destination whenever one was given (the discovered one is never
used), and otherwise it is the directory discovered from the diagnostic
output. -/
theorem directory_precedence (cmd : CloneCommand) (env : Env) (d n u : String)
    (h : (clone cmd env).remoteAdd = some (d, n, u)) :
    (∀ d₀, cmd.directory = some d₀ → d = d₀) ∧
    (cmd.directory = none → (clone cmd env).extracted = some d) := by
  unfold clone at h ⊢
  rcases hr : resolvePhase env (Source.fromStr cmd.repo) with ⟨r, ua⟩
  simp only [hr] at h ⊢
  cases r with
  | error e => simp at h
  | ok v =>
    obtain ⟨url, up⟩ := v
    unfold runClone at h ⊢
    cases hsp : env.spawn_ok with
    | false => simp [hsp] at h
    | true =>
      simp only [hsp, if_true] at h ⊢
      cases hw : env.wait_result with
      | none => simp [hw] at h
      | some b =>
        cases b with
        | false => simp [hw] at h
        | true =>
          simp only [hw] at h ⊢
          cases up with
          | none => simp at h
          | some upstream =>
            cases hdir : cmd.directory with
            | some d₀ =>
              simp only [hdir] at h ⊢
              rw [(wireUpstream_fields ..).1] at h
              simp only [Option.some.injEq, Prod.mk.injEq] at h
              refine ⟨fun x hx => ?_, fun hn => ?_⟩
              · simp only [Option.some.injEq] at hx
                rw [← hx]
                exact h.1.symm
              · simp at hn
            | none =>
              simp only [hdir] at h ⊢
              cases hex : (runLoop env.stderr_lines none).2 with
              | none => simp [hex] at h
              | some d₁ =>
                simp only [hex] at h ⊢
                rw [(wireUpstream_fields ..).1] at h
                simp only [Option.some.injEq, Prod.mk.injEq] at h
                refine ⟨fun x hx => ?_, fun _ => ?_⟩
                · exact absurd hx (by simp)
                · rw [(wireUpstream_fields ..).2.1, hex, h.1]

/-- Witness for C2: with an explicit destination `dest` and a diagnostic line
discovering `fork-of-proj`, remote wiring runs in `dest`. -/
theorem directory_precedence_witness :
    (clone sampleCmdDest sampleEnv).remoteAdd
        = some ("dest", "upstream", "https://github.com/carol/proj") ∧
    "dest" = "dest" :=
  ⟨rfl, (directory_precedence sampleCmdDest sampleEnv "dest" "upstream"
      "https://github.com/carol/proj" rfl).1 "dest" rfl⟩

/-- Claim C3: when the clone subprocess cannot be spawned or exits with a
nonzero status, the pipeline fails with a clone-process error (spawn failure
or `JJ clone failed`) and performs no remote wiring, whatever fork parent the
metadata reported. -/
theorem clone_failure_no_wiring (cmd : CloneCommand) (env : Env)
    (url : String) (up : Option Upstream)
    (hres : (resolvePhase env (Source.fromStr cmd.repo)).1 = .ok (url, up))
    (hfail : env.spawn_ok = false ∨ env.wait_result = some false) :
    (∃ e, (clone cmd env).result = .error e ∧ isCloneProcessError e = true) ∧
    (clone cmd env).remoteAdd = none := by
  unfold clone
  rcases hr : resolvePhase env (Source.fromStr cmd.repo) with ⟨r, ua⟩
  rw [hr] at hres
  have hres' : r = .ok (url, up) := hres
  subst hres'
  rcases hfail with hsp | hw
  · exact ⟨⟨.spawnFailed, by simp [runClone, hsp], rfl⟩, by simp [runClone, hsp]⟩
  · cases hsp : env.spawn_ok with
    | false =>
      exact ⟨⟨.spawnFailed, by simp [runClone, hsp], rfl⟩, by simp [runClone, hsp]⟩
    | true =>
      exact ⟨⟨.cloneProcessFailed, by simp [runClone, hsp, hw], rfl⟩,
        by simp [runClone, hsp, hw]⟩

/-- Witness for C3: the clone of a fork exits unsuccessfully; the run fails
with a clone-process error and no remote is added. -/
theorem clone_failure_no_wiring_witness :
    (∃ e, (clone sampleCmd sampleEnvCloneFail).result = .error e
        ∧ isCloneProcessError e = true) ∧
    (clone sampleCmd sampleEnvCloneFail).remoteAdd = none :=
  clone_failure_no_wiring sampleCmd sampleEnvCloneFail
    "https://github.com/bob/fork-of-proj" (some sampleUpstream) rfl (Or.inr rfl)

/-- Claim C4: when the clone exits successfully, the repository is a fork, no
explicit destination was given and no diagnostic line matched the directory
pattern, the pipeline fails with the missing-directory error and attempts no
remote wiring. -/
theorem missing_directory_error (cmd : CloneCommand) (env : Env)
    (url : String) (up : Upstream)
    (hres : (resolvePhase env (Source.fromStr cmd.repo)).1 = .ok (url, some up))
    (hsp : env.spawn_ok = true) (hw : env.wait_result = some true)
    (hdir : cmd.directory = none)
    (hlines : ∀ l ∈ env.stderr_lines, extractDir l = none) :
    (clone cmd env).result = .error .missingDirectory ∧
    (clone cmd env).remoteAdd = none := by
  unfold clone
  rcases hr : resolvePhase env (Source.fromStr cmd.repo) with ⟨r, ua⟩
  rw [hr] at hres
  have hres' : r = .ok (url, some up) := hres
  subst hres'
  have hex : (runLoop env.stderr_lines none).2 = none := runLoop_snd_of_all_none hlines
  simp [runClone, hsp, hw, hdir, hex]

/-- Witness for C4: clone of a fork succeeds but stderr holds only `noise`
and no destination was given; the run fails with the missing-directory
error. -/
theorem missing_directory_error_witness :
    (clone sampleCmd sampleEnvNoDirLine).result = .error .missingDirectory ∧
    (clone sampleCmd sampleEnvNoDirLine).remoteAdd = none :=
  missing_directory_error sampleCmd sampleEnvNoDirLine
    "https://github.com/bob/fork-of-proj" sampleUpstream rfl rfl rfl rfl (by decide)

/-- Claim C6: for a hosted source, the canonical clone URL is the fixed
string `https://github.com/<owner>/<name>` built from the resolved owner and
the name alone, and it is independent of the API response (any two
environments with the same hosts configuration that both succeed yield the
same URL, whatever their lookup returns, fork parent included). -/
theorem canonical_url_deterministic (env : Env) (o : Option String) (nm : String)
    (url : String) (up : Option Upstream)
    (hres : (resolvePhase env (Source.GitHub o nm)).1 = .ok (url, up)) :
    (∃ hosts ow, env.hosts_load = some hosts ∧ resolveOwner hosts o = .ok ow ∧
        url = "https://github.com/" ++ ow ++ "/" ++ nm) ∧
    (∀ (env' : Env) (url' : String) (up' : Option Upstream),
        env'.hosts_load = env.hosts_load →
        (resolvePhase env' (Source.GitHub o nm)).1 = .ok (url', up') →
        url' = url) := by
  cases hh : env.hosts_load with
  | none => simp [resolvePhase, hh] at hres
  | some hosts =>
    cases how : resolveOwner hosts o with
    | error e => simp [resolvePhase, hh, how] at hres
    | ok ow =>
      cases ht : hosts.token with
      | none => simp [resolvePhase, hh, how, ht] at hres
      | some t =>
        cases t with
        | none => simp [resolvePhase, hh, how, ht] at hres
        | some tok =>
          cases hb : env.octocrab_build_ok with
          | false => simp [resolvePhase, hh, how, ht, hb] at hres
          | true =>
            cases hg : env.repos_get ow nm with
            | none => simp [resolvePhase, hh, how, ht, hb, hg] at hres
            | some repo =>
              simp only [resolvePhase, hh, how, ht, hb, if_true, hg] at hres
              have hurl : url = "https://github.com/" ++ ow ++ "/" ++ nm := by
                have h1 := congrArg (fun r : Except CloneError (String × Option Upstream)
                  => match r with
                  | Except.ok v => v.1
                  | Except.error _ => url) hres
                simpa using h1.symm
              refine ⟨⟨hosts, ow, rfl, how, hurl⟩, ?_⟩
              intro env' url' up' hh' hres'
              cases hb' : env'.octocrab_build_ok with
              | false => simp [resolvePhase, hh', how, ht, hb'] at hres'
              | true =>
                cases hg' : env'.repos_get ow nm with
                | none => simp [resolvePhase, hh', how, ht, hb', hg'] at hres'
                | some repo' =>
                  simp only [resolvePhase, hh', how, ht, hb', if_true, hg'] at hres'
                  have h2 := congrArg (fun r : Except CloneError (String × Option Upstream)
                    => match r with
                    | Except.ok v => v.1
                    | Except.error _ => url') hres'
                  simp only at h2
                  rw [← h2, hurl]

/-- Witness for C6: resolving `bob/fork-of-proj` under `sampleEnv` yields the
canonical URL built from owner and name alone. -/
theorem canonical_url_deterministic_witness :
    (∃ hosts ow, sampleEnv.hosts_load = some hosts ∧
        resolveOwner hosts (some "bob") = .ok ow ∧
        "https://github.com/bob/fork-of-proj"
          = "https://github.com/" ++ ow ++ "/" ++ "fork-of-proj") ∧
    (∀ (env' : Env) (url' : String) (up' : Option Upstream),
        env'.hosts_load = sampleEnv.hosts_load →
        (resolvePhase env' (Source.GitHub (some "bob") "fork-of-proj")).1
          = .ok (url', up') →
        url' = "https://github.com/bob/fork-of-proj") :=
  canonical_url_deterministic sampleEnv (some "bob") "fork-of-proj"
    "https://github.com/bob/fork-of-proj" (some sampleUpstream) rfl

/-- Claim C7: when the resolver classifies the input as a raw location, the
metadata client is never invoked, the original string is passed unchanged as
the clone URL, and no remote wiring is ever performed. -/
theorem raw_location_passthrough (cmd : CloneCommand) (env : Env) (u : String)
    (hw : Source.fromStr cmd.repo = .Web u) :
    (clone cmd env).usedApi = false ∧
    (clone cmd env).repoUrl = some cmd.repo ∧
    (clone cmd env).remoteAdd = none := by
  have hu : u = cmd.repo := web_carries_original hw
  subst hu
  unfold clone
  rw [hw]
  have hargs := runClone_args cmd env false cmd.repo none
  exact ⟨hargs.2.2, hargs.2.1, runClone_no_upstream cmd env false cmd.repo⟩

/-- Witness for C7: `https://example.com/some/raw.git` resolves to a raw
location; the run uses no API, clones that URL verbatim and adds no remote. -/
theorem raw_location_passthrough_witness :
    (clone sampleCmdRaw sampleEnv).usedApi = false ∧
    (clone sampleCmdRaw sampleEnv).repoUrl = some "https://example.com/some/raw.git" ∧
    (clone sampleCmdRaw sampleEnv).remoteAdd = none :=
  raw_location_passthrough sampleCmdRaw sampleEnv "https://example.com/some/raw.git" rfl

/-- Claim C8: the clone command line is, in order: the `git clone`
subcommand, the colocate flag exactly when requested, the resolved URL, the
destination exactly when supplied, then all passthrough arguments verbatim
and last. -/
theorem clone_args_order (cmd : CloneCommand) (env : Env) (args : List String)
    (h : (clone cmd env).cloneArgs = some args) :
    ∃ url, (clone cmd env).repoUrl = some url ∧
      args = ["git", "clone"] ++ (if cmd.colocate then ["--colocate"] else [])
        ++ [url] ++ (match cmd.directory with | some d => [d] | none => [])
        ++ cmd.rest := by
  unfold clone at h ⊢
  rcases hr : resolvePhase env (Source.fromStr cmd.repo) with ⟨r, ua⟩
  simp only [hr] at h ⊢
  cases r with
  | error e => simp at h
  | ok v =>
    obtain ⟨url, up⟩ := v
    have ha := (runClone_args cmd env ua url up).1
    have hrp := (runClone_args cmd env ua url up).2.1
    rw [ha] at h
    simp only [Option.some.injEq] at h
    exact ⟨url, hrp, by rw [← h, buildCloneArgs_eq]⟩

/-- Witness for C8: with colocate, destination `D` and passthrough
`--depth 1`, the argument list is exactly
`git clone --colocate <url> D --depth 1`. -/
theorem clone_args_order_witness :
    (clone sampleCmdFull sampleEnv).cloneArgs
        = some ["git", "clone", "--colocate", "https://github.com/bob/fork-of-proj",
            "D", "--depth", "1"] ∧
    ∃ url, (clone sampleCmdFull sampleEnv).repoUrl = some url ∧
      ["git", "clone", "--colocate", "https://github.com/bob/fork-of-proj",
          "D", "--depth", "1"]
        = ["git", "clone"] ++ (if sampleCmdFull.colocate then ["--colocate"] else [])
          ++ [url]
          ++ (match sampleCmdFull.directory with | some d => [d] | none => [])
          ++ sampleCmdFull.rest :=
  ⟨rfl, clone_args_order sampleCmdFull sampleEnv _ rfl⟩

/-- Claim C9: whenever the wait-for-exit call is consulted, every diagnostic
line of the stream has already been echoed, in order and to end-of-stream,
strictly before it: the event trace is the echo of all stderr lines followed
by the wait event. -/
theorem drain_before_wait (cmd : CloneCommand) (env : Env)
    (h : Event.waitConsulted ∈ (clone cmd env).events) :
    ∃ rest, (clone cmd env).events
        = env.stderr_lines.map Event.echo ++ Event.waitConsulted :: rest := by
  unfold clone at h ⊢
  rcases hr : resolvePhase env (Source.fromStr cmd.repo) with ⟨r, ua⟩
  simp only [hr] at h ⊢
  cases r with
  | error e => simp at h
  | ok v =>
    obtain ⟨url, up⟩ := v
    have hfst : (runLoop env.stderr_lines none).1 = env.stderr_lines := runLoop_fst ..
    cases hsp : env.spawn_ok with
    | false => simp [runClone, hsp] at h
    | true =>
      cases hw : env.wait_result with
      | none => exact ⟨[], by simp [runClone, hsp, hw, hfst]⟩
      | some b =>
        cases b with
        | false => exact ⟨[], by simp [runClone, hsp, hw, hfst]⟩
        | true =>
          cases up with
          | none => exact ⟨[], by simp [runClone, hsp, hw, hfst]⟩
          | some upstream =>
            cases hdir : cmd.directory with
            | some d =>
              refine ⟨[Event.remoteAddInvoked d cmd.upstream_remote_name upstream.url], ?_⟩
              have he := (wireUpstream_fields cmd env ua url
                (buildCloneArgs cmd.colocate url cmd.directory cmd.rest)
                (runLoop env.stderr_lines none) upstream d).2.2.2.2.2
              simp only [hdir] at he
              simp only [runClone, hsp, if_true, hw, hdir]
              rw [he, hfst]
            | none =>
              cases hex : (runLoop env.stderr_lines none).2 with
              | none => exact ⟨[], by simp [runClone, hsp, hw, hdir, hex, hfst]⟩
              | some d =>
                refine ⟨[Event.remoteAddInvoked d cmd.upstream_remote_name upstream.url], ?_⟩
                have he := (wireUpstream_fields cmd env ua url
                  (buildCloneArgs cmd.colocate url cmd.directory cmd.rest)
                  (runLoop env.stderr_lines none) upstream d).2.2.2.2.2
                simp only [hdir] at he
                simp only [runClone, hsp, if_true, hw, hdir, hex]
                rw [he, hfst]

/-- Witness for C9: in the fully successful sample run the trace is the echo
of the single diagnostic line, then the wait, then the remote add. -/
theorem drain_before_wait_witness :
    ∃ rest, (clone sampleCmd sampleEnv).events
        = sampleEnv.stderr_lines.map Event.echo ++ Event.waitConsulted :: rest :=
  drain_before_wait sampleCmd sampleEnv (by decide)

end GhJj
